import Mathlib

/-!
Verification of the request canonicalization, signing, response handling and
report-polling layer of a Python client library for the Amazon MWS API.

The Python sources are shallowly embedded: Python `str` becomes `String`,
Python `bytes` becomes `List Nat` (each entry a byte value), Python `dict`
becomes an association list with pairwise-distinct keys, fallible code
returns `Except`, and remote calls are modelled by passing their outcomes
in explicitly.  Machine words inside the hash primitives are `Nat` reduced
with explicit `% 2 ^ 32`.
-/

/-- Uppercase hexadecimal digit for a value below 16,
as produced by the `%%XX` escapes of `urllib.parse.quote`. -/
def hexUpper (n : Nat) : Char :=
  if n < 10 then Char.ofNat (48 + n) else Char.ofNat (55 + n)

/-- Percent escape of one byte: the three characters `%XY` with uppercase hex. -/
def hexEsc (b : Nat) : List Char :=
  ['%', hexUpper (b / 16), hexUpper (b % 16)]

/-- UTF-8 encoding of a single code point (Python `str.encode('utf-8')`, per character). -/
def utf8Char (c : Char) : List Nat :=
  let n := c.toNat
  if n < 128 then [n]
  else if n < 2048 then [192 + n / 64, 128 + n % 64]
  else if n < 65536 then [224 + n / 4096, 128 + (n / 64) % 64, 128 + n % 64]
  else [240 + n / 262144, 128 + (n / 4096) % 64, 128 + (n / 64) % 64, 128 + n % 64]

/-- UTF-8 encoding of a whole string as a byte list. -/
def utf8 (s : String) : List Nat :=
  s.data.foldr (fun c acc => utf8Char c ++ acc) []

/-- Percent-encoding of a byte list: bytes accepted by `keep` become the
corresponding ASCII character, every other byte becomes a `%XY` escape. -/
def percentEncodeKeep (keep : Nat → Bool) (bs : List Nat) : String :=
  String.mk (bs.foldr (fun b acc => (if keep b then [Char.ofNat b] else hexEsc b) ++ acc) [])

/-- ASCII letter or digit test on a byte. -/
def isAlnumByte (b : Nat) : Bool :=
  (48 ≤ b && b ≤ 57) || (65 ≤ b && b ≤ 90) || (97 ≤ b && b ≤ 122)

/-- Bytes left unencoded by `urllib.parse.quote` with a given `safe` byte set:
letters, digits and the four marks `_.-~` are never quoted, and the bytes of
the `safe` argument are kept as well. -/
def quoteKeep (safe : List Nat) (b : Nat) : Bool :=
  isAlnumByte b || b = 45 || b = 46 || b = 95 || b = 126 || safe.contains b

/-- Embedding of `urllib.parse.quote` applied to a `bytes` value. -/
def pyQuoteBytes (safe : List Nat) (bs : List Nat) : String :=
  percentEncodeKeep (quoteKeep safe) bs

/-- Embedding of `urllib.parse.quote(s, encoding='utf-8', safe=...)` applied to a `str`. -/
def pyQuote (safe : List Nat) (s : String) : String :=
  percentEncodeKeep (quoteKeep safe) (utf8 s)

/-- Byte values of the `safe='-_.~'` argument used for parameter values in
`MWS.make_request` (`src/mws/_mws.py` line 200). -/
def valueSafe : List Nat := [45, 95, 46, 126]

/-- Python truthiness domain for request-parameter values: the value kinds that
appear in the parameter dictionaries of this library. -/
inductive Value where
  | str (s : String)
  | bytes (b : List Nat)
  | vNone
  | int (n : Int)
  | list (l : List Value)
deriving Repr

/-- Python truthiness of a parameter value (`bool(v)`): `None`, empty strings,
empty byte strings, zero and empty lists are falsy. -/
def truthy : Value → Bool
  | .str s => !s.data.isEmpty
  | .bytes b => !b.isEmpty
  | .vNone => false
  | .int n => decide (n ≠ 0)
  | .list l => !l.isEmpty

/-- Parameter dictionaries are association lists; a genuine Python `dict` has
pairwise-distinct keys, stated as a hypothesis where it matters. -/
abbrev Dict := List (String × Value)

/-- Embedding of `del d[key]` on a dictionary. -/
def pyDel (d : Dict) (k : String) : Dict :=
  d.filter (fun kv => kv.1 ≠ k)

/-- Embedding of `remove_empty` from `src/mws/_mws.py` lines 79-87: iterate
over a snapshot of the entries and delete every key whose value is falsy,
returning the mutated dictionary itself.  The truthiness test reads the value
the key held when the snapshot was taken, which in a dictionary (distinct
keys) is its only value. -/
def remove_empty (d : Dict) : Dict :=
  d.foldl (fun acc kv => if truthy kv.2 then acc else pyDel acc kv.1) d

/-- Embedding of `remove_empty` from `src/mws/fulfillment_outbound_shipment.py`
lines 5-12: the dict comprehension keeping exactly the truthy-valued items,
built as a new dictionary. -/
def remove_empty_fos (d : Dict) : Dict :=
  d.filter (fun kv => truthy kv.2)

/-- Call-state view of the `_mws.py` `remove_empty`: the function mutates its
argument in place and returns that same object, so after the call both the
argument and the return value hold the filtered entries.  The pair is
(argument after the call, return value). -/
def remove_empty_call (d : Dict) : Dict × Dict :=
  (remove_empty d, remove_empty d)

/-- Call-state view of the `fulfillment_outbound_shipment.py` `remove_empty`:
the comprehension builds a fresh dictionary and leaves the argument unchanged.
The pair is (argument after the call, return value). -/
def remove_empty_fos_call (d : Dict) : Dict × Dict :=
  (d, remove_empty_fos d)

/-- Decimal digit character (the characters produced by Python `'%d'` formatting). -/
def decDigit : Nat → Char
  | 0 => '0'
  | 1 => '1'
  | 2 => '2'
  | 3 => '3'
  | 4 => '4'
  | 5 => '5'
  | 6 => '6'
  | 7 => '7'
  | 8 => '8'
  | _ => '9'

/-- Decimal digit string of a natural number, most significant digit first,
the output of Python `'%d' % n`. -/
def natChars (n : Nat) : List Char :=
  if n < 10 then [decDigit n] else natChars (n / 10) ++ [decDigit (n % 10)]
termination_by n
decreasing_by exact Nat.div_lt_self (by omega) (by omega)

/-- Decimal rendering of a natural number as a `String`. -/
def natStr (n : Nat) : String := String.mk (natChars n)

/-- Numeric reading of a digit string (code point arithmetic, base ten). -/
def parseNat (l : List Char) : Nat :=
  l.foldl (fun a c => 10 * a + (c.toNat - 48)) 0

/-- Normalisation of the parameter name in `MWS.enumerate_param`: a trailing
dot is appended unless already present (`src/mws/_mws.py` lines 297-299,
`param.endswith('.')` for the one-character suffix is a last-character test). -/
def dotted (param : String) : String :=
  if param.data.getLast? = some '.' then param else param ++ "."

/-- Loop body of `MWS.enumerate_param`: 1-based enumeration producing the keys
`param.i` in element order (`src/mws/_mws.py` lines 300-301). -/
def enumerateAux (p : String) : Nat → List String → List (String × String)
  | _, [] => []
  | i, v :: vs => (p ++ natStr i, v) :: enumerateAux p (i + 1) vs

/-- Embedding of `MWS.enumerate_param` from `src/mws/_mws.py` lines 283-302;
`values=None` yields the empty dictionary. -/
def enumerate_param (param : String) (values : Option (List String)) : List (String × String) :=
  match values with
  | some vs => enumerateAux (dotted param) 1 vs
  | Option.none => []

/-- Numeric suffix of an enumerated key: the digits after the dotted parameter
name, read as a number.  Used by the decoding direction of the round-trip. -/
def suffixVal (param : String) (key : String) : Nat :=
  parseNat (key.data.drop (dotted param).data.length)

/-- Suffix order on enumerated key-value pairs. -/
def sufLE (param : String) (a b : String × String) : Prop :=
  suffixVal param a.1 ≤ suffixVal param b.1

instance (param : String) : DecidableRel (sufLE param) :=
  fun a b => inferInstanceAs (Decidable (suffixVal param a.1 ≤ suffixVal param b.1))

/-- Decoding an enumerated parameter dictionary: order the pairs by their
numeric key suffix and read off the values. -/
def decodeEnum (param : String) (pairs : List (String × String)) : List String :=
  (List.insertionSort (sufLE param) pairs).map Prod.snd

/-- Code-point lexicographic comparison of character lists, the order Python
`sorted` uses on strings. -/
def chListLe : List Char → List Char → Bool
  | [], _ => true
  | _ :: _, [] => false
  | a :: as, b :: bs =>
      if a.toNat < b.toNat then true
      else if b.toNat < a.toNat then false
      else chListLe as bs

/-- Lexicographic key order used by `sorted(params)` in `MWS.make_request`. -/
def keyLE (a b : String × String) : Prop := chListLe a.1.data b.1.data = true

instance : DecidableRel keyLE :=
  fun a b => inferInstanceAs (Decidable (chListLe a.1.data b.1.data = true))

/-- Strict version of the key order, total-order-antisymmetric on distinct keys. -/
def keyLT (a b : String × String) : Prop := keyLE a b ∧ a.1 ≠ b.1

/-- Embedding of the canonical request string of `MWS.make_request`
(`src/mws/_mws.py` line 200): the key=value pairs, keys sorted
lexicographically, values quoted with `safe='-_.~'`, joined by ampersands. -/
def request_description (params : List (String × String)) : String :=
  String.intercalate "&" ((List.insertionSort keyLE params).map
    (fun kv => kv.1 ++ "=" ++ pyQuote valueSafe kv.2))

/-- Modelled from the spec: an encoder that keeps only the four characters
`-_.~` unencoded, the literal reading of the claim that everything else is
percent-encoded.  Compared against the source encoder, which also keeps
letters and digits. -/
def claimQuote (s : String) : String :=
  percentEncodeKeep (fun b => b = 45 || b = 95 || b = 46 || b = 126) (utf8 s)

/-- Modelled from the spec: the canonical request string under the literal
claim reading of the value encoding. -/
def claimDescription (params : List (String × String)) : String :=
  String.intercalate "&" ((List.insertionSort keyLE params).map
    (fun kv => kv.1 ++ "=" ++ claimQuote kv.2))

/-- Modulus of 32-bit machine words inside the hash primitives. -/
def M32 : Nat := 4294967296

/-- Addition of 32-bit words. -/
def add32 (a b : Nat) : Nat := (a + b) % M32

/-- Right rotation of a 32-bit word. -/
def rotr32 (r x : Nat) : Nat := ((x >>> r) ||| (x <<< (32 - r))) % M32

/-- Left rotation of a 32-bit word. -/
def rotl32 (r x : Nat) : Nat := ((x <<< r) ||| (x >>> (32 - r))) % M32

/-- Bitwise complement of a 32-bit word. -/
def not32 (x : Nat) : Nat := x ^^^ (M32 - 1)

/-- Big-endian byte rendering of a number into a fixed number of bytes. -/
def bytesBE : Nat → Nat → List Nat
  | 0, _ => []
  | k + 1, n => bytesBE k (n / 256) ++ [n % 256]

/-- Little-endian byte rendering of a number into a fixed number of bytes. -/
def bytesLE : Nat → Nat → List Nat
  | 0, _ => []
  | k + 1, n => n % 256 :: bytesLE k (n / 256)

/-- Big-endian 32-bit words of a byte list (groups of four). -/
def wordsBE : List Nat → List Nat
  | a :: b :: c :: d :: rest => (((a * 256 + b) * 256 + c) * 256 + d) :: wordsBE rest
  | _ => []

/-- Little-endian 32-bit words of a byte list (groups of four). -/
def wordsLE : List Nat → List Nat
  | a :: b :: c :: d :: rest => (a + 256 * (b + 256 * (c + 256 * d))) :: wordsLE rest
  | _ => []

/-- Byte list split into blocks of 64, with fuel for termination. -/
def chunks64 : Nat → List Nat → List (List Nat)
  | 0, _ => []
  | _, [] => []
  | f + 1, l => l.take 64 :: chunks64 f (l.drop 64)

/-- SHA-256 round constants. -/
def shaK : List Nat :=
  [1116352408, 1899447441, 3049323471, 3921009573, 961987163, 1508970993, 2453635748, 2870763221,
   3624381080, 310598401, 607225278, 1426881987, 1925078388, 2162078206, 2614888103, 3248222580,
   3835390401, 4022224774, 264347078, 604807628, 770255983, 1249150122, 1555081692, 1996064986,
   2554220882, 2821834349, 2952996808, 3210313671, 3336571891, 3584528711, 113926993, 338241895,
   666307205, 773529912, 1294757372, 1396182291, 1695183700, 1986661051, 2177026350, 2456956037,
   2730485921, 2820302411, 3259730800, 3345764771, 3516065817, 3600352804, 4094571909, 275423344,
   430227734, 506948616, 659060556, 883997877, 958139571, 1322822218, 1537002063, 1747873779,
   1955562222, 2024104815, 2227730452, 2361852424, 2428436474, 2756734187, 3204031479, 3329325298]

/-- SHA-256 initial state. -/
def shaInit : List Nat :=
  [1779033703, 3144134277, 1013904242, 2773480762, 1359893119, 2600822924, 528734635, 1541459225]

/-- Message-schedule sigma functions of SHA-256. -/
def smallSigma0 (x : Nat) : Nat := rotr32 7 x ^^^ rotr32 18 x ^^^ (x >>> 3)

/-- Second message-schedule sigma function of SHA-256. -/
def smallSigma1 (x : Nat) : Nat := rotr32 17 x ^^^ rotr32 19 x ^^^ (x >>> 10)

/-- First compression sigma function of SHA-256. -/
def bigSigma0 (x : Nat) : Nat := rotr32 2 x ^^^ rotr32 13 x ^^^ rotr32 22 x

/-- Second compression sigma function of SHA-256. -/
def bigSigma1 (x : Nat) : Nat := rotr32 6 x ^^^ rotr32 11 x ^^^ rotr32 25 x

/-- Extension of the sixteen message words to sixty-four. -/
def extendW : Nat → List Nat → List Nat
  | 0, ws => ws
  | n + 1, ws =>
      let t := ws.length
      let w := (smallSigma1 (ws.getD (t - 2) 0) + ws.getD (t - 7) 0 +
                smallSigma0 (ws.getD (t - 15) 0) + ws.getD (t - 16) 0) % M32
      extendW n (ws ++ [w])

/-- One SHA-256 compression round over the eight-word state. -/
def shaRound (st : List Nat) (kw : Nat × Nat) : List Nat :=
  match st with
  | [a, b, c, d, e, f, g, h] =>
      let t1 := (h + bigSigma1 e + ((e &&& f) ^^^ (not32 e &&& g)) + kw.1 + kw.2) % M32
      let t2 := (bigSigma0 a + ((a &&& b) ^^^ (a &&& c) ^^^ (b &&& c))) % M32
      [(t1 + t2) % M32, a, b, c, (d + t1) % M32, e, f, g]
  | other => other

/-- SHA-256 compression of one 64-byte block into the running state. -/
def shaCompress (st : List Nat) (chunk : List Nat) : List Nat :=
  let ws := extendW 48 (wordsBE chunk)
  List.zipWith add32 st ((shaK.zip ws).foldl shaRound st)

/-- Merkle-Damgard padding: a 0x80 byte, zeros to 56 mod 64, and the bit length. -/
def shaPad (msg : List Nat) : List Nat :=
  msg ++ 128 :: List.replicate ((119 - msg.length % 64) % 64) 0 ++ bytesBE 8 (8 * msg.length)

/-- SHA-256 digest of a byte list (the `hashlib.sha256` collaborator). -/
def sha256 (msg : List Nat) : List Nat :=
  let p := shaPad msg
  ((chunks64 p.length p).foldl shaCompress shaInit).foldr (fun w acc => bytesBE 4 w ++ acc) []

/-- HMAC-SHA256 (the `hmac.new(key, msg, hashlib.sha256)` collaborator). -/
def hmacSha256 (key msg : List Nat) : List Nat :=
  let k0 := if 64 < key.length then sha256 key else key
  let kp := k0 ++ List.replicate (64 - k0.length) 0
  sha256 ((kp.map (fun b => b ^^^ 92)) ++ sha256 ((kp.map (fun b => b ^^^ 54)) ++ msg))

/-- Base64 alphabet, as byte values. -/
def b64Byte (n : Nat) : Nat :=
  if n < 26 then 65 + n else if n < 52 then 71 + n else if n < 62 then n - 4
  else if n = 62 then 43 else 47

/-- Base64 encoding of a byte list with padding (the `base64.b64encode` collaborator). -/
def b64Encode : List Nat → List Nat
  | a :: b :: c :: rest =>
      let n := a * 65536 + b * 256 + c
      b64Byte (n / 262144) :: b64Byte ((n / 4096) % 64) :: b64Byte ((n / 64) % 64) ::
        b64Byte (n % 64) :: b64Encode rest
  | [a, b] =>
      let n := a * 65536 + b * 256
      [b64Byte (n / 262144), b64Byte ((n / 4096) % 64), b64Byte ((n / 64) % 64), 61]
  | [a] =>
      let n := a * 65536
      [b64Byte (n / 262144), b64Byte ((n / 4096) % 64), 61, 61]
  | [] => []

/-- Helper for `base64.encodebytes`: encode 57-byte pieces, each line newline-terminated. -/
def encodebytesAux : Nat → List Nat → List Nat
  | 0, _ => []
  | _, [] => []
  | f + 1, l => b64Encode (l.take 57) ++ [10] ++ encodebytesAux f (l.drop 57)

/-- Embedding of the `base64.encodebytes` collaborator (MIME base64 with newlines). -/
def encodebytes (bs : List Nat) : List Nat := encodebytesAux bs.length bs

/-- MD5 per-round constants (the standard sine table). -/
def md5K : List Nat :=
  [0xd76aa478, 0xe8c7b756, 0x242070db, 0xc1bdceee, 0xf57c0faf, 0x4787c62a, 0xa8304613, 0xfd469501,
   0x698098d8, 0x8b44f7af, 0xffff5bb1, 0x895cd7be, 0x6b901122, 0xfd987193, 0xa679438e, 0x49b40821,
   0xf61e2562, 0xc040b340, 0x265e5a51, 0xe9b6c7aa, 0xd62f105d, 0x02441453, 0xd8a1e681, 0xe7d3fbc8,
   0x21e1cde6, 0xc33707d6, 0xf4d50d87, 0x455a14ed, 0xa9e3e905, 0xfcefa3f8, 0x676f02d9, 0x8d2a4c8a,
   0xfffa3942, 0x8771f681, 0x6d9d6122, 0xfde5380c, 0xa4beea44, 0x4bdecfa9, 0xf6bb4b60, 0xbebfbc70,
   0x289b7ec6, 0xeaa127fa, 0xd4ef3085, 0x04881d05, 0xd9d4d039, 0xe6db99e5, 0x1fa27cf8, 0xc4ac5665,
   0xf4292244, 0x432aff97, 0xab9423a7, 0xfc93a039, 0x655b59c3, 0x8f0ccc92, 0xffeff47d, 0x85845dd1,
   0x6fa87e4f, 0xfe2ce6e0, 0xa3014314, 0x4e0811a1, 0xf7537e82, 0xbd3af235, 0x2ad7d2bb, 0xeb86d391]

/-- MD5 per-round left-rotation amounts. -/
def md5S : List Nat :=
  [7, 12, 17, 22, 7, 12, 17, 22, 7, 12, 17, 22, 7, 12, 17, 22,
   5, 9, 14, 20, 5, 9, 14, 20, 5, 9, 14, 20, 5, 9, 14, 20,
   4, 11, 16, 23, 4, 11, 16, 23, 4, 11, 16, 23, 4, 11, 16, 23,
   6, 10, 15, 21, 6, 10, 15, 21, 6, 10, 15, 21, 6, 10, 15, 21]

/-- MD5 initial state. -/
def md5Init : List Nat := [0x67452301, 0xefcdab89, 0x98badcfe, 0x10325476]

/-- One MD5 round over the four-word state. -/
def md5Round (ws : List Nat) (st : List Nat) (i : Nat) : List Nat :=
  match st with
  | [a, b, c, d] =>
      let fg : Nat × Nat :=
        if i < 16 then ((b &&& c) ||| (not32 b &&& d), i)
        else if i < 32 then ((d &&& b) ||| (not32 d &&& c), (5 * i + 1) % 16)
        else if i < 48 then (b ^^^ c ^^^ d, (3 * i + 5) % 16)
        else (c ^^^ (b ||| not32 d), (7 * i) % 16)
      let x := (a + fg.1 + md5K.getD i 0 + ws.getD fg.2 0) % M32
      [d, (b + rotl32 (md5S.getD i 0) x) % M32, b, c]
  | other => other

/-- MD5 compression of one 64-byte block into the running state. -/
def md5Compress (st : List Nat) (chunk : List Nat) : List Nat :=
  List.zipWith add32 st ((List.range 64).foldl (md5Round (wordsLE chunk)) st)

/-- MD5 padding: a 0x80 byte, zeros to 56 mod 64, and the little-endian bit length. -/
def md5Pad (msg : List Nat) : List Nat :=
  msg ++ 128 :: List.replicate ((119 - msg.length % 64) % 64) 0 ++ bytesLE 8 (8 * msg.length)

/-- MD5 digest of a byte list (the `hashlib.md5` collaborator). -/
def md5 (msg : List Nat) : List Nat :=
  let p := md5Pad msg
  ((chunks64 p.length p).foldl md5Compress md5Init).foldr (fun w acc => bytesLE 4 w ++ acc) []

/-- Test whether the first list is an initial segment of the second. -/
def chListStart : List Char → List Char → Bool
  | [], _ => true
  | _ :: _, [] => false
  | p :: ps, c :: cs => p == c && chListStart ps cs

/-- Replacement scan over characters with fuel: every non-overlapping
occurrence of `pat` is replaced by `rep`, left to right. -/
def replaceFuel (pat rep : List Char) : Nat → List Char → List Char
  | 0, l => l
  | _, [] => []
  | f + 1, c :: cs =>
      if chListStart pat (c :: cs) then rep ++ replaceFuel pat rep f ((c :: cs).drop pat.length)
      else c :: replaceFuel pat rep f cs

/-- Embedding of Python `str.replace`: replace every non-overlapping
occurrence of `pat` by `rep`, scanning left to right. -/
def strReplace (s pat rep : String) : String :=
  ⟨replaceFuel pat.data rep.data s.data.length s.data⟩

/-- ASCII lower-casing of one character (the domain strings this library
lower-cases are ASCII). -/
def lowerChar (c : Char) : Char :=
  if 65 ≤ c.toNat && c.toNat ≤ 90 then Char.ofNat (c.toNat + 32) else c

/-- Embedding of Python `str.lower` on ASCII strings. -/
def strLower (s : String) : String := ⟨s.data.map lowerChar⟩

/-- Embedding of `MWS.calc_signature` from `src/mws/_mws.py` lines 257-264:
the string to sign is method, scheme-stripped lower-cased domain, uri and the
canonical parameter string joined by newlines; the HMAC-SHA256 digest under
the secret key is base64 encoded and percent-encoded with the default
`safe='/'` of `urllib.parse.quote`. -/
def calc_signature (secret_key domain uri method rd : String) : String :=
  let sig_data := method ++ "\x0A" ++ strLower (strReplace domain "https://" "") ++ "\x0A" ++
    uri ++ "\x0A" ++ rd
  pyQuoteBytes [47] (b64Encode (hmacSha256 (utf8 secret_key) (utf8 sig_data)))

/-- Python error outcomes surfaced by the embedded fragments. -/
inductive PyErr where
  | typeError (msg : String)
  | mwsError (msg : String)
  | xmlSyntaxError (msg : String)
deriving Repr, DecidableEq

/-- Python 3 value that is either a `str` or a `bytes` object. -/
inductive PyStrBytes where
  | s (v : String)
  | b (v : List Nat)
deriving Repr, DecidableEq

/-- Equality test between `str` and `bytes` values: in Python 3 a `str` is
never equal to a `bytes` object. -/
def pyNe (x y : PyStrBytes) : Bool :=
  match x, y with
  | .s a, .s a' => a ≠ a'
  | .b a, .b a' => a ≠ a'
  | _, _ => true

/-- Removal of leading and trailing bytes drawn from `chars` (`bytes.strip` semantics). -/
def stripBytes (self chars : List Nat) : List Nat :=
  ((self.dropWhile (fun b => chars.contains b)).reverse.dropWhile
    (fun b => chars.contains b)).reverse

/-- Embedding of the Python 3 `bytes.strip` method: the argument must itself
be a bytes-like object, a `str` argument raises `TypeError`. -/
def pyBytesStrip (self : List Nat) (chars : PyStrBytes) : Except PyErr (List Nat) :=
  match chars with
  | .b cs => .ok (stripBytes self cs)
  | .s _ => .error (.typeError "a bytes-like object is required, not str")

/-- Embedding of `calc_md5` from `src/mws/_mws.py` lines 71-76:
`base64.encodebytes(md5(string).digest()).strip('\x5Cn')` — note the
`strip` argument is the one-character `str` newline, not a bytes literal. -/
def calc_md5 (data : List Nat) : Except PyErr (List Nat) :=
  pyBytesStrip (encodebytes (md5 data)) (.s "\x0A")

/-- Lookup of a response header by name (requests headers are
case-insensitive; header names are modelled already lower-cased). -/
def headerLookup (headers : List (String × String)) (k : String) : Option String :=
  (headers.find? (fun h => h.1 = k)).map Prod.snd

/-- State of a constructed `DataWrapper` (`src/mws/_mws.py` lines 111-124). -/
structure DataWrapperObj where
  original : List Nat
deriving Repr, DecidableEq

/-- Embedding of `DataWrapper.__init__`: when a `content-md5` header is
present, compute `calc_md5` of the body and raise `MWSError` when the header
token differs from the computed hash. -/
def dataWrapperInit (data : List Nat) (headers : List (String × String)) :
    Except PyErr DataWrapperObj :=
  match headerLookup headers "content-md5" with
  | some tok =>
      match calc_md5 data with
      | .error e => .error e
      | .ok hash =>
          if pyNe (.s tok) (.b hash) then
            .error (.mwsError "Wrong Contentlength, maybe amazon error...")
          else .ok ⟨data⟩
  | Option.none => .ok ⟨data⟩

/-- Embedding of the `DataWrapper.parsed` property: the raw bytes unchanged. -/
def dataWrapperParsed (w : DataWrapperObj) : List Nat := w.original

/-- Namespace-stripped XML tree, the parse result of a response body. -/
inductive Xml where
  | elem (tag : String) (children : List Xml)
  | text (t : String)
deriving Repr

mutual

/-- Descendant-or-self elements with a given tag, in document order
(the xpath `//tag` axis). -/
def descElems (tag : String) : Xml → List Xml
  | .text _ => []
  | .elem t cs => (if t = tag then [Xml.elem t cs] else []) ++ descElemsList tag cs

/-- Descendant elements with a given tag over a list of trees. -/
def descElemsList (tag : String) : List Xml → List Xml
  | [] => []
  | x :: xs => descElems tag x ++ descElemsList tag xs

end

/-- Child elements with a given tag (one xpath step). -/
def childElems (tag : String) : Xml → List Xml
  | .text _ => []
  | .elem _ cs => cs.filter (fun c => match c with | .elem t _ => t == tag | _ => false)

/-- Text nodes directly below an element (the xpath `text()` step). -/
def textChildren : Xml → List String
  | .text _ => []
  | .elem _ cs => cs.filterMap (fun c => match c with | .text t => some t | _ => Option.none)

/-- Concatenated text nodes of a list of elements. -/
def catTexts (xs : List Xml) : List String :=
  xs.foldr (fun x acc => textChildren x ++ acc) []

/-- Concatenated tagged children of a list of elements. -/
def catChild (tag : String) (xs : List Xml) : List Xml :=
  xs.foldr (fun x acc => childElems tag x ++ acc) []

/-- Fields an `ErrorResponse` exposes (`src/mws/parsers/errors.py` lines 6-44). -/
structure ErrorResponseObj where
  type : Option String
  code : Option String
  message : Option String
  request_id : Option String
deriving Repr, DecidableEq

/-- First text of `//ErrorResponse/Error/<leaf>/text()` (the `first_element`
decorator returns the head of the xpath result, `None` when empty). -/
def errorLeaf (root : Xml) (leaf : String) : Option String :=
  (catTexts (catChild leaf (catChild "Error" (descElems "ErrorResponse" root)))).head?

/-- First text of `//ErrorResponse/RequestID/text()`. -/
def errorReqId (root : Xml) : Option String :=
  (catTexts (catChild "RequestID" (descElems "ErrorResponse" root))).head?

/-- Field extraction of an `ErrorResponse` envelope from a parsed,
namespace-stripped tree (`src/mws/parsers/errors.py` lines 12-30): what the
envelope would expose.  On Python 3 the call `MWS.make_request` makes never
reaches parsing — see `errorResponseLoadBytes`. -/
def errorResponseLoad (root : Xml) : ErrorResponseObj :=
  ⟨errorLeaf root "Type", errorLeaf root "Code", errorLeaf root "Message", errorReqId root⟩

/-- Embedding of `ErrorResponse.load` (`src/mws/parsers/errors.py` lines
32-44) applied to a raw `bytes` body — the only way `MWS.make_request` calls
it (`src/mws/_mws.py` line 221 passes `response.content`): the first
statement applies the `str` regex pattern stripping xmlns declarations via
`re.sub` to the bytes value, and on Python 3 a string pattern cannot be used
on a bytes-like object, so `re.sub` raises `TypeError` before
`etree.fromstring` runs; this call can therefore produce neither a parsed
envelope nor an `XMLSyntaxError`, for every body whatsoever. -/
def errorResponseLoadBytes (_content : List Nat) : Except PyErr ErrorResponseObj :=
  .error (.typeError "cannot use a string pattern on a bytes-like object")

/-- Truthiness of `err.message` in `MWS.make_request`: a present, non-empty string. -/
def messageTruthy (e : ErrorResponseObj) : Bool :=
  match e.message with
  | some s => !s.data.isEmpty
  | Option.none => false

/-- HTTP response as the transport sees it: status, raw body bytes, the
outcome of the `xml2dict` parse attempted by `DictWrapper` (`Option.none`
when the body is not well-formed XML, the `XMLError` branch), and headers. -/
structure HttpResponse where
  status : Nat
  content : List Nat
  contentXml : Option Xml
  headers : List (String × String)

/-- Outcome of the response-processing tail of `MWS.make_request`
(`src/mws/_mws.py` lines 219-247). -/
inductive MwsOutcome where
  | serviceError (e : ErrorResponseObj)
  | httpError (body : List Nat)
  | pyError (e : PyErr)
  | xmlResult (root : Xml) (rootkey : String)
  | rawResult (data : List Nat)

/-- Status test of `response.raise_for_status()`: raises for 4xx and 5xx. -/
def raiseForStatus (resp : HttpResponse) : Bool :=
  400 ≤ resp.status && resp.status < 600

/-- Wrapper selection of `MWS.make_request`: `DictWrapper` on well-formed XML,
`DataWrapper` otherwise (`src/mws/_mws.py` lines 235-238). -/
def handleParsed (action : String) (resp : HttpResponse) : MwsOutcome :=
  match resp.contentXml with
  | some root => .xmlResult root (action ++ "Result")
  | Option.none =>
      match dataWrapperInit resp.content resp.headers with
      | .ok w => .rawResult (dataWrapperParsed w)
      | .error e => .pyError e

/-- Status check followed by wrapper selection (`src/mws/_mws.py` lines 227-243):
a 4xx or 5xx raises `HTTPError`, wrapped into `MWSError` carrying the body. -/
def handleStatus (action : String) (resp : HttpResponse) : MwsOutcome :=
  if raiseForStatus resp then .httpError resp.content else handleParsed action resp

/-- Response-processing tail of `MWS.make_request` (`src/mws/_mws.py` lines
219-247): the envelope check runs first, calling
`ErrorResponse.load(response.content)` on the raw bytes; its
`except XMLSyntaxError: pass` clause catches only `XMLSyntaxError`, every
other raise propagates.  Only when the check completes without raising is a
truthy envelope message raised as the typed error, and only after that are
the HTTP status checked and a wrapper built.  Since on Python 3 the load of
a bytes body always raises `TypeError` (see `errorResponseLoadBytes`), the
later branches are unreachable there. -/
def handleResponse (action : String) (resp : HttpResponse) : MwsOutcome :=
  match errorResponseLoadBytes resp.content with
  | .error (PyErr.xmlSyntaxError _) => handleStatus action resp
  | .error e => .pyError e
  | .ok err =>
      if messageTruthy err then .serviceError err else handleStatus action resp

/-- Record inspected by one iteration of `RequestReportResponse.wait`: the
fields of the first `ReportRequestInfo` of the poll response
(`src/mws/parsers/reports/requestreport.py` lines 13-100). -/
structure PollResult where
  report_processing_status : Option String
  completed_date : Option String
  generated_report_id : Option String
deriving Repr, DecidableEq

/-- Truthiness of `request_result.completed_date`: the completed-date text is
present and non-empty. -/
def completedTruthy (p : PollResult) : Bool :=
  match p.completed_date with
  | some s => !s.data.isEmpty
  | Option.none => false

/-- Python rendering of an optional status inside a format string. -/
def showStatus : Option String → String
  | some s => s
  | Option.none => "None"

/-- Error message raised by `RequestReportResponse.wait` at a terminal
non-success status (`src/mws/parsers/reports/requestreport.py` line 286). -/
def waitMsg (report_request_id : String) (status : Option String) : String :=
  "GetReportRequestList for report_request_id=" ++ report_request_id ++
    " returned " ++ showStatus status

/-- Embedding of `RequestReportResponse.wait` from
`src/mws/parsers/reports/requestreport.py` lines 268-287, over the sequence
of successive poll results: sleep then poll; the loop exits at the first poll
whose completed date is truthy, returning that poll's generated report id
when its status is the `_DONE_` sentinel and raising `ValueError` with the
request id and observed status otherwise.  `Option.none` models a poll
sequence the loop never exits on. -/
def wait (report_request_id : String) : List PollResult → Option (Except String (Option String))
  | [] => Option.none
  | p :: rest =>
      if completedTruthy p then
        some (if p.report_processing_status = some "_DONE_" then
                Except.ok p.generated_report_id
              else Except.error (waitMsg report_request_id p.report_processing_status))
      else wait report_request_id rest

/-- Outcomes of the three remote calls made by
`RequestReportResponse.wait_and_download`, passed in explicitly: the wait
loop (yielding the generated report id), the report-contents fetch, and the
acknowledgment call. -/
structure ReportsEnv where
  wait_outcome : Except PyErr String
  contents_outcome : String → Except PyErr String
  ack_outcome : String → Except PyErr Unit

/-- Embedding of `RequestReportResponse.wait_and_download` from
`src/mws/parsers/reports/requestreport.py` lines 306-317: wait, fetch the
contents, acknowledge, and return the contents; there is no exception
handling, every raise propagates. -/
def wait_and_download (env : ReportsEnv) : Except PyErr String :=
  match env.wait_outcome with
  | .error e => .error e
  | .ok rid =>
      match env.contents_outcome rid with
      | .error e => .error e
      | .ok contents =>
          match env.ack_outcome rid with
          | .error e => .error e
          | .ok _ => .ok contents

/-- Environment in which waiting and downloading succeed but the
acknowledgment call raises. -/
def envAckFails : ReportsEnv :=
  ⟨.ok "R1", fun _ => .ok "REPORTDATA", fun _ => .error (.mwsError "ack failed")⟩

/-- Python `round` (banker's rounding, half to even) on a rational. -/
def pyRound (q : ℚ) : ℤ :=
  let fl := ⌊q⌋
  if q - fl < 1 / 2 then fl
  else if 1 / 2 < q - fl then fl + 1
  else if fl % 2 = 0 then fl else fl + 1

/-- Embedding of `FlatFileWrapper.offset_dt` from
`src/mws/parsers/reports/requestreport.py` lines 364-372, with clock values
and timestamps as rational seconds: `offset` is `utcnow - now`,
`seconds_offset` is `round(offset.total_seconds()) / 60`, and the result is
`dt - timedelta(seconds=seconds_offset)`. -/
def offset_dt (utcnow now dt : ℚ) : ℚ :=
  dt - (pyRound (utcnow - now) : ℚ) / 60

/-- Datetime branch of `FlatFileWrapper.convert_text`
(`src/mws/parsers/reports/requestreport.py` lines 380-382): a cell matching
the datetime pattern is parsed and passed through `offset_dt`. -/
def convert_text_dt (utcnow now parsedCell : ℚ) : ℚ :=
  offset_dt utcnow now parsedCell


/-- ErrorResponse body of the transport error scenario: a parsed
namespace-stripped envelope with a Sender type, an InvalidParameterValue
code, a non-empty message and a request id. -/
def senderErrorXml : Xml :=
  .elem "ErrorResponse"
    [.elem "Error"
      [.elem "Type" [.text "Sender"],
       .elem "Code" [.text "InvalidParameterValue"],
       .elem "Message" [.text "Value is invalid"]],
     .elem "RequestID" [.text "a1b2c3"]]

/-- HTTP 200 response whose body carries the error envelope above. -/
def resp200 : HttpResponse :=
  ⟨200, utf8 "<ErrorResponse/>", some senderErrorXml, []⟩

/-- Headers carrying a content-md5 token that is exactly the base64-encoded
MD5 digest of the body b"abc" (the matching token, computed externally). -/
def md5HeadersAbc : List (String × String) :=
  [("content-md5", "kAFQmDzST7DWlj99KOF/cg==")]

/-- Poll record with a null completed date (job still processing). -/
def pollNull : PollResult := ⟨some "_SUBMITTED_", Option.none, Option.none⟩

/-- Poll record with a non-null completed date and the success sentinel. -/
def pollDone : PollResult := ⟨some "_DONE_", some "2016-05-01T00:00:00+00:00", some "GEN3"⟩

theorem decDigit_toNat {m : Nat} (h : m < 10) : (decDigit m).toNat = 48 + m := by
  interval_cases m <;> rfl

theorem parseNat_append (l : List Char) (c : Char) :
    parseNat (l ++ [c]) = 10 * parseNat l + (c.toNat - 48) := by
  simp [parseNat, List.foldl_append]

theorem parseNat_natChars (n : Nat) : parseNat (natChars n) = n := by
  induction n using Nat.strong_induction_on with
  | _ n ih =>
    rw [natChars]
    by_cases h : n < 10
    · rw [if_pos h]
      show 10 * 0 + ((decDigit n).toNat - 48) = n
      rw [decDigit_toNat h]
      omega
    · rw [if_neg h, parseNat_append, ih (n / 10) (Nat.div_lt_self (by omega) (by omega)),
        decDigit_toNat (Nat.mod_lt n (by omega))]
      omega

theorem enumerateAux_snd (p : String) (i : Nat) (vs : List String) :
    (enumerateAux p i vs).map Prod.snd = vs := by
  induction vs generalizing i with
  | nil => rfl
  | cons v vs ih => simp [enumerateAux, ih]

theorem enumerateAux_fst (p : String) (i : Nat) (vs : List String) :
    (enumerateAux p i vs).map Prod.fst =
      (List.range vs.length).map (fun j => p ++ natStr (i + j)) := by
  induction vs generalizing i with
  | nil => rfl
  | cons v vs ih =>
    simp only [enumerateAux, List.map_cons, List.length_cons, List.range_succ_eq_map,
      List.map_map, ih]
    refine congrArg₂ _ (by rw [Nat.add_zero]) ?_
    apply List.map_congr_left
    intro j _
    exact congrArg (fun m => p ++ natStr m) (by omega : i + 1 + j = i + Nat.succ j)

theorem string_data_eq {a b : String} (h : a.data = b.data) : a = b := by
  cases a; cases b; exact congrArg String.mk h

theorem suffixVal_key (param : String) (i : Nat) :
    suffixVal param (dotted param ++ natStr i) = i := by
  unfold suffixVal
  rw [show (dotted param ++ natStr i).data = (dotted param).data ++ natChars i from
    String.data_append _ _, List.drop_left]
  exact parseNat_natChars i

theorem mem_enumerateAux_suffix (param : String) :
    ∀ (i : Nat) (vs : List String) (kv : String × String),
      kv ∈ enumerateAux (dotted param) i vs → i ≤ suffixVal param kv.1 := by
  intro i vs
  induction vs generalizing i with
  | nil => intro kv hkv; cases hkv
  | cons v vs ih =>
    intro kv hkv
    rcases hkv with _ | hkv
    · rw [suffixVal_key]
    · exact le_trans (Nat.le_succ i) (ih (i + 1) kv (by assumption))

theorem sorted_enumerateAux (param : String) (i : Nat) (vs : List String) :
    List.Sorted (sufLE param) (enumerateAux (dotted param) i vs) := by
  induction vs generalizing i with
  | nil => exact List.sorted_nil
  | cons v vs ih =>
    rw [enumerateAux, List.sorted_cons]
    refine ⟨fun b hb => ?_, ih (i + 1)⟩
    show suffixVal param (dotted param ++ natStr i) ≤ suffixVal param b.1
    rw [suffixVal_key]
    exact le_trans (Nat.le_succ i) (mem_enumerateAux_suffix param (i + 1) vs b hb)

/-- C6: for every parameter name and list of values, `MWS.enumerate_param`
produces exactly the keys `param.1` to `param.N` in order, key `param.i`
holds the i-th element, and decoding by the numeric key suffix (sorting the
pairs by suffix and reading off values) recovers the original list — the
round-trip is the identity. -/
theorem enumerate_param_roundtrip (param : String) (vs : List String) :
    (enumerate_param param (some vs)).map Prod.fst =
      (List.range vs.length).map (fun j => dotted param ++ natStr (j + 1)) ∧
    (enumerate_param param (some vs)).map Prod.snd = vs ∧
    decodeEnum param (enumerate_param param (some vs)) = vs := by
  refine ⟨?_, enumerateAux_snd _ _ _, ?_⟩
  · rw [show enumerate_param param (some vs) = enumerateAux (dotted param) 1 vs from rfl,
      enumerateAux_fst]
    apply List.map_congr_left
    intro j _
    rw [Nat.add_comm 1 j]
  · unfold decodeEnum
    rw [show enumerate_param param (some vs) = enumerateAux (dotted param) 1 vs from rfl,
      List.Sorted.insertionSort_eq (sorted_enumerateAux param 1 vs)]
    exact enumerateAux_snd _ _ _

theorem char_eq_of_toNat {a b : Char} (h : a.toNat = b.toNat) : a = b := by
  apply Char.eq_of_val_eq
  unfold Char.toNat at h
  exact UInt32.eq_of_val_eq (Fin.eq_of_val_eq h)

theorem chListLe_cons (a b : Char) (as bs : List Char) :
    chListLe (a :: as) (b :: bs) = true ↔
      a.toNat < b.toNat ∨ (a.toNat = b.toNat ∧ chListLe as bs = true) := by
  simp only [chListLe]
  split_ifs with h1 h2
  · simp [h1]
  · constructor
    · intro h; exact absurd h (by simp)
    · rintro (h | ⟨h, _⟩) <;> omega
  · have he : a.toNat = b.toNat := by omega
    simp [h1, he]

theorem chListLe_trans : ∀ (as bs cs : List Char),
    chListLe as bs = true → chListLe bs cs = true → chListLe as cs = true
  | [], _, _, _, _ => rfl
  | _ :: _, [], _, h1, _ => by simp [chListLe] at h1
  | _ :: _, _ :: _, [], _, h2 => by simp [chListLe] at h2
  | a :: as, b :: bs, c :: cs, h1, h2 => by
      rw [chListLe_cons] at h1 h2 ⊢
      rcases h1 with h1 | ⟨h1e, h1r⟩
      · rcases h2 with h2 | ⟨h2e, h2r⟩
        · exact Or.inl (by omega)
        · exact Or.inl (by omega)
      · rcases h2 with h2 | ⟨h2e, h2r⟩
        · exact Or.inl (by omega)
        · exact Or.inr ⟨by omega, chListLe_trans as bs cs h1r h2r⟩

theorem chListLe_total : ∀ (as bs : List Char),
    chListLe as bs = true ∨ chListLe bs as = true
  | [], _ => Or.inl rfl
  | _ :: _, [] => Or.inr rfl
  | a :: as, b :: bs => by
      rw [chListLe_cons, chListLe_cons]
      rcases Nat.lt_trichotomy a.toNat b.toNat with h | h | h
      · exact Or.inl (Or.inl h)
      · rcases chListLe_total as bs with hr | hr
        · exact Or.inl (Or.inr ⟨h, hr⟩)
        · exact Or.inr (Or.inr ⟨h.symm, hr⟩)
      · exact Or.inr (Or.inl h)

theorem chListLe_antisymm : ∀ (as bs : List Char),
    chListLe as bs = true → chListLe bs as = true → as = bs
  | [], [], _, _ => rfl
  | [], _ :: _, _, h2 => by simp [chListLe] at h2
  | _ :: _, [], h1, _ => by simp [chListLe] at h1
  | a :: as, b :: bs, h1, h2 => by
      rw [chListLe_cons] at h1 h2
      rcases h1 with h1 | ⟨h1e, h1r⟩
      · rcases h2 with h2 | ⟨h2e, _⟩ <;> exact (by omega : False).elim
      · rcases h2 with h2 | ⟨h2e, h2r⟩
        · exact (by omega : False).elim
        · rw [char_eq_of_toNat h1e, chListLe_antisymm as bs h1r h2r]

theorem insertionSort_keyLE_eq {l₁ l₂ : List (String × String)}
    (hn : (l₁.map Prod.fst).Nodup) (hp : l₁.Perm l₂) :
    List.insertionSort keyLE l₁ = List.insertionSort keyLE l₂ := by
  haveI : IsTotal (String × String) keyLE := ⟨fun a b => chListLe_total _ _⟩
  haveI : IsTrans (String × String) keyLE :=
    ⟨fun _ _ _ h1 h2 => chListLe_trans _ _ _ h1 h2⟩
  haveI : IsAntisymm (String × String) keyLT :=
    ⟨fun a b h1 h2 =>
      absurd (string_data_eq (chListLe_antisymm _ _ h1.1 h2.1)) h1.2⟩
  have hperm : (List.insertionSort keyLE l₁).Perm (List.insertionSort keyLE l₂) :=
    (List.perm_insertionSort keyLE l₁).trans (hp.trans (List.perm_insertionSort keyLE l₂).symm)
  have hn₁ : ((List.insertionSort keyLE l₁).map Prod.fst).Nodup :=
    (((List.perm_insertionSort keyLE l₁).map Prod.fst).symm).nodup hn
  have hn₂ : ((List.insertionSort keyLE l₂).map Prod.fst).Nodup :=
    (((List.perm_insertionSort keyLE l₂).map Prod.fst).symm).nodup ((hp.map Prod.fst).nodup hn)
  have hs₁ : List.Sorted keyLT (List.insertionSort keyLE l₁) :=
    (List.sorted_insertionSort keyLE l₁).and (List.pairwise_map.mp hn₁)
  have hs₂ : List.Sorted keyLT (List.insertionSort keyLE l₂) :=
    (List.sorted_insertionSort keyLE l₂).and (List.pairwise_map.mp hn₂)
  exact List.eq_of_perm_of_sorted hperm hs₁ hs₂

/-- C2 (amended): for every final parameter dictionary, the canonical request
string of `MWS.make_request` is the ampersand-join of key=value pairs in
lexicographic order of the raw parameter names, each value percent-encoded on
a UTF-8 byte basis leaving ASCII letters, digits and the characters `-_.~`
unencoded; encoding any reordering of the same dictionary yields the
identical string. -/
theorem request_description_spec (l₁ l₂ : List (String × String))
    (hn : (l₁.map Prod.fst).Nodup) (hp : l₁.Perm l₂) :
    request_description l₁ = request_description l₂ ∧
    request_description l₁ = String.intercalate "&"
      ((List.insertionSort keyLE l₁).map (fun kv => kv.1 ++ "=" ++
        percentEncodeKeep (quoteKeep valueSafe) (utf8 kv.2))) := by
  constructor
  · unfold request_description
    rw [insertionSort_keyLE_eq hn hp]
  · rfl

set_option maxRecDepth 40000 in
theorem request_description_spec_witness :
    ([("SignatureVersion", "2"), ("Action", "GetOrder")].map Prod.fst).Nodup ∧
    request_description [("SignatureVersion", "2"), ("Action", "GetOrder")] =
      request_description [("Action", "GetOrder"), ("SignatureVersion", "2")] :=
  ⟨by decide, (request_description_spec _ _ (by decide) (by decide)).1⟩

set_option maxRecDepth 40000 in
theorem request_description_counterexample :
    request_description [("Action", "GetOrder")] = "Action=GetOrder" ∧
    claimDescription [("Action", "GetOrder")] = "Action=%47%65%74%4F%72%64%65%72" ∧
    request_description [("Action", "GetOrder")] ≠ claimDescription [("Action", "GetOrder")] := by
  exact ⟨by decide, by decide, by decide⟩

theorem foldl_del (todo : Dict) : ∀ acc : Dict,
    todo.foldl (fun acc kv => if truthy kv.2 then acc else pyDel acc kv.1) acc =
      acc.filter (fun kv => !(todo.any (fun t => t.1 == kv.1 && !truthy t.2))) := by
  induction todo with
  | nil => intro acc; simp
  | cons t ts ih =>
    intro acc
    rw [List.foldl_cons]
    by_cases h : truthy t.2
    · rw [if_pos h, ih]
      apply List.filter_congr
      intro kv _
      simp [List.any_cons, h]
    · rw [if_neg h, ih]
      unfold pyDel
      simp only [List.filter_filter]
      apply List.filter_congr
      intro kv _
      by_cases he : kv.1 = t.1
      · simp [List.any_cons, he, h]
      · simp [List.any_cons, he, h]
        intro _
        exact fun hx => he hx.symm

theorem remove_empty_eq_filter (d : Dict) (hn : (d.map Prod.fst).Nodup) :
    remove_empty d = remove_empty_fos d := by
  unfold remove_empty remove_empty_fos
  rw [foldl_del]
  apply List.filter_congr
  intro kv hkv
  by_cases ht : truthy kv.2
  · cases hb : d.any (fun t => t.1 == kv.1 && !truthy t.2) with
    | false => simp [ht]
    | true =>
      exfalso
      rw [List.any_eq_true] at hb
      obtain ⟨t, htm, hteq⟩ := hb
      rw [Bool.and_eq_true, beq_iff_eq] at hteq
      have heq := List.inj_on_of_nodup_map hn htm hkv hteq.1
      rw [heq] at hteq
      simp [ht] at hteq
  · have hb : d.any (fun t => t.1 == kv.1 && !truthy t.2) = true := by
      rw [List.any_eq_true]
      exact ⟨kv, hkv, by simp [ht]⟩
    simp [hb, ht]

/-- C5: for every parameter dictionary, `remove_empty` keeps exactly the
truthy-valued entries with their original values, dropping the falsy ones
(None, empty string, empty bytes, zero, empty list) and changing nothing else
(the result is a sublist of the input). -/
theorem remove_empty_spec (d : Dict) (hn : (d.map Prod.fst).Nodup) :
    (∀ k v, ((k, v) ∈ remove_empty d ↔ (k, v) ∈ d ∧ truthy v = true)) ∧
    (remove_empty d).Sublist d := by
  rw [remove_empty_eq_filter d hn]
  constructor
  · intro k v
    rw [remove_empty_fos, List.mem_filter]
  · exact List.filter_sublist d

theorem remove_empty_spec_witness :
    ("ReportType", Value.str "_GET_FLAT_FILE_ORDERS_DATA_") ∈
      remove_empty [("ReportType", Value.str "_GET_FLAT_FILE_ORDERS_DATA_"),
        ("StartDate", Value.vNone)] ∧
    ("StartDate", Value.vNone) ∉
      remove_empty [("ReportType", Value.str "_GET_FLAT_FILE_ORDERS_DATA_"),
        ("StartDate", Value.vNone)] := by
  have h := remove_empty_spec
    [("ReportType", Value.str "_GET_FLAT_FILE_ORDERS_DATA_"), ("StartDate", Value.vNone)]
    (by decide)
  constructor
  · exact (h.1 _ _).mpr ⟨List.mem_cons_self _ _, rfl⟩
  · intro hmem
    have hfalse := ((h.1 _ _).mp hmem).2
    simp [truthy] at hfalse

/-- C10: the two `remove_empty` implementations agree extensionally — both
return the restriction of the dictionary to its truthy-valued entries — but
differ in effect on the argument: the `_mws` version returns its own mutated
argument (argument after the call equals the filtered return), while the
`fulfillment_outbound_shipment` version builds a new dictionary and leaves
its argument unchanged. -/
theorem remove_empty_agree (d : Dict) (hn : (d.map Prod.fst).Nodup) :
    remove_empty d = remove_empty_fos d ∧
    remove_empty_call d = (remove_empty_fos d, remove_empty_fos d) ∧
    remove_empty_fos_call d = (d, remove_empty_fos d) ∧
    remove_empty_fos d = d.filter (fun kv => truthy kv.2) := by
  refine ⟨remove_empty_eq_filter d hn, ?_, rfl, rfl⟩
  unfold remove_empty_call
  rw [remove_empty_eq_filter d hn]

theorem remove_empty_agree_witness :
    remove_empty [("A", Value.str "x"), ("B", Value.vNone)] =
      remove_empty_fos [("A", Value.str "x"), ("B", Value.vNone)] ∧
    remove_empty_fos_call [("A", Value.str "x"), ("B", Value.vNone)] =
      ([("A", Value.str "x"), ("B", Value.vNone)], [("A", Value.str "x")]) := by
  have h := remove_empty_agree [("A", Value.str "x"), ("B", Value.vNone)] (by decide)
  exact ⟨h.1, h.2.2.1.trans rfl⟩

theorem intercalate4 (s a b c d : String) :
    String.intercalate s [a, b, c, d] = a ++ s ++ (b ++ s ++ (c ++ s ++ d)) := by
  simp [String.intercalate, String.intercalate.go, String.append_assoc]

set_option maxRecDepth 100000 in
/-- C1: for every method, domain, uri and canonical parameter string,
`MWS.calc_signature` returns the percent-encoded base64 encoding of the
HMAC-SHA256 digest, keyed by the secret key, of the string joining the
method, the scheme-stripped lower-cased domain, the uri and the unencoded
canonical parameter string with newline separators; for the configured
domain `https://mws.amazonservices.com` the signed host component is
`mws.amazonservices.com`, and on the concrete signing scenario (GET,
`/Orders/2013-09-01`, `Action=GetOrder&Version=2013-09-01`, secret
`secret`) the embedding reproduces the reference token bit for bit. -/
theorem calc_signature_spec (secret domain uri method rd : String) :
    calc_signature secret domain uri method rd =
      pyQuoteBytes [47] (b64Encode (hmacSha256 (utf8 secret)
        (utf8 (String.intercalate "\x0A"
          [method, strLower (strReplace domain "https://" ""), uri, rd])))) ∧
    strLower (strReplace "https://mws.amazonservices.com" "https://" "") =
      "mws.amazonservices.com" ∧
    calc_signature "secret" "https://mws.amazonservices.com" "/Orders/2013-09-01" "GET"
      "Action=GetOrder&Version=2013-09-01" =
      "zp/ptDF3fLZqGmJHpvWoeLyrJ7yN4GmxvzTpWd59QxM%3D" := by
  refine ⟨?_, by decide, by decide⟩
  unfold calc_signature
  rw [intercalate4]
  simp only [String.append_assoc]

/-- C4 (code bug): on Python 3 the envelope check of `MWS.make_request`
raises a bare `TypeError` for every response — the `str` regex of
`ErrorResponse.load` applied to the `bytes` body, uncaught by
`except XMLSyntaxError` — so the typed error exposing type, code, message
and request id is never raised, for the HTTP 200 ErrorResponse scenario
included; the envelope fields themselves are extractable from the parsed
tree exactly as the claim describes, and the scenario message is truthy, so
only the bytes/str slip stands between the code and the claimed raise. -/
theorem make_request_envelope_bug :
    (∀ (action : String) (resp : HttpResponse), handleResponse action resp =
      .pyError (.typeError "cannot use a string pattern on a bytes-like object")) ∧
    handleResponse "GetOrder" resp200 =
      .pyError (.typeError "cannot use a string pattern on a bytes-like object") ∧
    resp200.status = 200 ∧
    errorResponseLoad senderErrorXml =
      ⟨some "Sender", some "InvalidParameterValue", some "Value is invalid", some "a1b2c3"⟩ ∧
    messageTruthy (errorResponseLoad senderErrorXml) = true := by
  exact ⟨fun action resp => rfl, rfl, rfl, rfl, rfl⟩

/-- C7 (code bug): `DataWrapper` construction without a content-md5 header
succeeds and its `parsed` property exposes the raw bytes unchanged; but
whenever a content-md5 header is present — here with the token being exactly
the base64-encoded MD5 digest of the body bytes — construction raises
`TypeError` from `calc_md5` (`bytes.strip` called with a `str` argument in
Python 3) instead of exposing the bytes, so even a matching token never
validates. -/
theorem data_wrapper_md5_bug :
    dataWrapperInit (utf8 "c1\x09c2") [] = .ok ⟨utf8 "c1\x09c2"⟩ ∧
    dataWrapperParsed ⟨utf8 "c1\x09c2"⟩ = utf8 "c1\x09c2" ∧
    dataWrapperInit (utf8 "abc") md5HeadersAbc =
      .error (.typeError "a bytes-like object is required, not str") ∧
    calc_md5 (utf8 "abc") = .error (.typeError "a bytes-like object is required, not str") := by
  exact ⟨rfl, rfl, rfl, rfl⟩

/-- C3: `RequestReportResponse.wait` terminates at the first poll whose
completed date is truthy: polls with a null completed date never exit the
loop, and at the first terminal poll it returns that poll's generated report
id when the status is the `_DONE_` sentinel, and raises the error naming the
report request id and the observed status otherwise. -/
theorem wait_first_terminal (rid : String) (pre : List PollResult) (p : PollResult)
    (post : List PollResult)
    (hpre : ∀ q ∈ pre, completedTruthy q = false)
    (hp : completedTruthy p = true) :
    wait rid (pre ++ p :: post) =
      some (if p.report_processing_status = some "_DONE_" then Except.ok p.generated_report_id
            else Except.error (waitMsg rid p.report_processing_status)) ∧
    wait rid pre = Option.none := by
  induction pre with
  | nil => exact ⟨by simp [wait, hp], rfl⟩
  | cons q qs ih =>
    have hq := hpre q (List.mem_cons_self q qs)
    have hrest := ih (fun x hx => hpre x (List.mem_cons_of_mem q hx))
    constructor
    · rw [List.cons_append]
      simp [wait, hq, hrest.1]
    · simp [wait, hq, hrest.2]

theorem wait_first_terminal_witness :
    wait "rr-123" [pollNull, pollNull, pollDone] = some (Except.ok (some "GEN3")) := by
  have h := wait_first_terminal "rr-123" [pollNull, pollNull] pollDone []
    (by decide) rfl
  exact h.1.trans (by rfl)

theorem wait_and_download_counterexample :
    wait_and_download envAckFails = .error (.mwsError "ack failed") ∧
    wait_and_download envAckFails ≠ .ok "REPORTDATA" := by
  refine ⟨rfl, ?_⟩
  intro h
  have h2 : (Except.error (PyErr.mwsError "ack failed") : Except PyErr String) =
      Except.ok "REPORTDATA" := h
  exact Except.noConfusion h2

/-- C8 (amended): an error raised by the acknowledgment call propagates out
of `RequestReportResponse.wait_and_download`: when the wait and the
report-contents fetch succeed but the acknowledgment raises, the caller
receives the acknowledgment error and not the already-obtained contents. -/
theorem wait_and_download_ack_propagates (env : ReportsEnv) (rid contents : String) (e : PyErr)
    (hw : env.wait_outcome = .ok rid) (hc : env.contents_outcome rid = .ok contents)
    (ha : env.ack_outcome rid = .error e) :
    wait_and_download env = .error e := by
  simp [wait_and_download, hw, hc, ha]

theorem wait_and_download_ack_propagates_witness :
    wait_and_download envAckFails = .error (.mwsError "ack failed") :=
  wait_and_download_ack_propagates envAckFails "R1" "REPORTDATA" (.mwsError "ack failed")
    rfl rfl rfl

/-- C9 (code bug): with the local clock one hour behind UTC
(`utcnow - now = 3600` seconds), `FlatFileWrapper.offset_dt` shifts a parsed
timestamp by only 60 seconds — `round(offset.total_seconds()) / 60` turns
the offset into minutes but is then passed to `timedelta` as seconds — so
the datetime branch of `convert_text` returns neither `dt` minus the full
offset nor `dt` plus it, contradicting the claimed (and the function's own
documented) full-offset correction. -/
theorem offset_dt_bug :
    offset_dt 3600 0 0 = -60 ∧
    convert_text_dt 3600 0 0 = -60 ∧
    offset_dt 3600 0 0 ≠ 0 - ((3600 : ℚ) - 0) ∧
    offset_dt 3600 0 0 ≠ 0 - ((0 : ℚ) - 3600) := by
  have hr : pyRound ((3600 : ℚ) - 0) = 3600 := by
    unfold pyRound
    norm_num
  have h1 : offset_dt 3600 0 0 = -60 := by
    unfold offset_dt
    rw [hr]
    norm_num
  exact ⟨h1, h1, by rw [h1]; norm_num, by rw [h1]; norm_num⟩
